import Mathlib

/-!
# Verification of the T3nets hybrid routing engine

Shallow embedding of the routing engine of the T3nets conversational
front-end: the raw-mode flag extractor (`strip_raw_flag`), the
conversational classifier (`is_conversational`), the rule-based router
(`RuleBasedRouter.match`, `_score_match`, `_determine_action`,
`_extract_params`), the skill registry's tool projection
(`get_tools_for_tenant`), the dev-server chat orchestrator
(`_handle_chat`) and the tool-call dispatch of `Router.handle_message`.

Message text is represented as `List Char`.  Python floats are embedded
as rationals.  Regular expressions that are static data of the routing
corpus are embedded concretely character by character (the `--raw`
marker, the conversational whole-string patterns); the per-skill
detection and action regexes, which the routing algorithms only ever
consult through `pattern.search(text)`, are embedded as boolean
predicates on text.  External collaborators (model, skill bus,
serializer) are oracle functions supplied through an environment;
Python exceptions are embedded as `Except`.
-/

namespace T3nets

/-! ## Character classes (Python `\s`, `str.strip`, `str.lower`) -/

/-- Python whitespace class `\s` restricted to its ASCII members. -/
def isSpaceC (c : Char) : Bool :=
  c = ' ' || c = '\t' || c = '\n' || c = '\r' || c = '\x0b' || c = '\x0c'

/-- Drop leading whitespace (one side of Python `str.strip()`). -/
def dropWs (l : List Char) : List Char := l.dropWhile isSpaceC

/-- Python `str.strip()`: drop whitespace from both ends. -/
def pyStrip (l : List Char) : List Char :=
  ((dropWs l).reverse.dropWhile isSpaceC).reverse

/-- Python `str.lower()` on the character list. -/
def toLowerL (l : List Char) : List Char := l.map Char.toLower

/-- Convert a character list back to a `String` (message payloads). -/
def listToStr (l : List Char) : String := ⟨l⟩

/-- Character list of a string literal. -/
def lchars (s : String) : List Char := s.toList

theorem dropWs_length_le (l : List Char) : (dropWs l).length ≤ l.length := by
  unfold dropWs
  induction l with
  | nil => simp
  | cons c t ih =>
    by_cases h : isSpaceC c
    · simp [List.dropWhile, h]
      exact Nat.le_succ_of_le ih
    · simp [List.dropWhile, h]

theorem dropWs_suffix (l : List Char) : ∃ a, l = a ++ dropWs l := by
  unfold dropWs
  induction l with
  | nil => exact ⟨[], rfl⟩
  | cons c t ih =>
    by_cases h : isSpaceC c
    · obtain ⟨a, ha⟩ := ih
      exact ⟨c :: a, by simp [List.dropWhile, h]; exact ha⟩
    · exact ⟨[], by simp [List.dropWhile, h]⟩

theorem pyStrip_infix (l : List Char) : ∃ a b, l = a ++ pyStrip l ++ b := by
  unfold pyStrip
  obtain ⟨a, ha⟩ := dropWs_suffix l
  obtain ⟨b, hb⟩ := dropWs_suffix (dropWs l).reverse
  refine ⟨a, b.reverse, ?_⟩
  have : dropWs l = ((dropWs l).reverse.dropWhile isSpaceC).reverse ++ b.reverse := by
    have := congrArg List.reverse hb
    simpa [dropWs, List.reverse_append] using this
  calc l = a ++ dropWs l := ha
    _ = a ++ (((dropWs l).reverse.dropWhile isSpaceC).reverse ++ b.reverse) := by rw [← this]
    _ = a ++ ((dropWs l).reverse.dropWhile isSpaceC).reverse ++ b.reverse := by
          rw [List.append_assoc]

/-! ## The `--raw` flag extractor (`strip_raw_flag`)

The marker regex is `\s*--raw\s*` with `re.IGNORECASE`.  A match at a
given position is: a (greedy, maximal) whitespace run, then the literal
`--raw` case-insensitively, then a maximal trailing whitespace run; the
backtracking of `\s*` never helps because `-` is not whitespace.
`re.sub` replaces every non-overlapping match, scanning left to right,
with a single space; `re.search` succeeds iff the literal `--raw`
occurs anywhere (the leading `\s*` may be empty). -/

/-- Case-insensitive comparison of one character against a (lower-case)
pattern character, as `re.IGNORECASE` does for literals. -/
def charCI (c target : Char) : Bool := c.toLower = target

/-- Try to read the literal `--raw` case-insensitively at the head of
the list; return the remainder on success. -/
def matchRawCI : List Char → Option (List Char)
  | c1 :: c2 :: c3 :: c4 :: c5 :: rest =>
    if charCI c1 '-' && charCI c2 '-' && charCI c3 'r' && charCI c4 'a' && charCI c5 'w'
    then some rest else none
  | _ => none

/-- Try to match `\s*--raw\s*` at the head of the list; return the
remainder after the trailing whitespace run on success. -/
def matchWsRaw (l : List Char) : Option (List Char) :=
  (matchRawCI (dropWs l)).map dropWs

theorem matchRawCI_length {l rest : List Char} (h : matchRawCI l = some rest) :
    rest.length + 5 = l.length := by
  unfold matchRawCI at h
  match l, h with
  | c1 :: c2 :: c3 :: c4 :: c5 :: r, h =>
    by_cases hc : charCI c1 '-' && charCI c2 '-' && charCI c3 'r' && charCI c4 'a' && charCI c5 'w'
    · simp [hc] at h
      subst h
      simp
    · simp [hc] at h

theorem matchWsRaw_length {l rest : List Char} (h : matchWsRaw l = some rest) :
    rest.length < l.length := by
  unfold matchWsRaw at h
  match hm : matchRawCI (dropWs l) with
  | none => rw [hm] at h; simp at h
  | some r =>
    rw [hm] at h
    simp at h
    have h5 := matchRawCI_length hm
    have h1 : r.length < (dropWs l).length := by omega
    have h2 : (dropWs r).length ≤ r.length := dropWs_length_le r
    have h3 : (dropWs l).length ≤ l.length := dropWs_length_le l
    subst h
    omega

/-- Fuel-driven worker for the substitution pass.  The fuel is only a
structural-recursion device: it never runs out when it starts at the
length of the text, because every step consumes at least one
character. -/
def subRawGo : Nat → List Char → List Char
  | 0, _ => []
  | _ + 1, [] => []
  | fuel + 1, c :: t =>
    match matchWsRaw (c :: t) with
    | some rest => ' ' :: subRawGo fuel rest
    | none => c :: subRawGo fuel t

/-- Embedding of `RAW_FLAG_PATTERN.sub(" ", text)`: replace every occurrence of
`\s*--raw\s*` with a single space, scanning left to right. -/
def subRaw (l : List Char) : List Char := subRawGo l.length l

theorem subRawGo_nil (f : Nat) : subRawGo f [] = [] := by
  cases f <;> rfl

theorem subRawGo_fuel {f1 : Nat} : ∀ {l : List Char} {f2 : Nat},
    l.length ≤ f1 → l.length ≤ f2 → subRawGo f1 l = subRawGo f2 l := by
  induction f1 with
  | zero =>
    intro l f2 h1 _
    have : l = [] := List.eq_nil_of_length_eq_zero (Nat.le_zero.mp h1)
    subst this
    rw [subRawGo_nil, subRawGo_nil]
  | succ f ih =>
    intro l f2 h1 h2
    match l with
    | [] => rw [subRawGo_nil, subRawGo_nil]
    | c :: t =>
      match f2, h2 with
      | f2' + 1, h2 =>
        show subRawGo (f + 1) (c :: t) = subRawGo (f2' + 1) (c :: t)
        cases hm : matchWsRaw (c :: t) with
        | some rest =>
          have hlt := matchWsRaw_length hm
          simp only [subRawGo, hm]
          simp only [List.length_cons] at h1 h2 hlt
          exact congrArg _ (ih (by omega) (by omega))
        | none =>
          simp only [subRawGo, hm]
          simp only [List.length_cons] at h1 h2
          exact congrArg _ (ih (by omega) (by omega))

theorem subRaw_nil : subRaw [] = [] := rfl

theorem subRaw_match {l rest : List Char} (h : matchWsRaw l = some rest) :
    subRaw l = ' ' :: subRaw rest := by
  match l with
  | [] =>
    exfalso
    have h0 : matchWsRaw [] = none := rfl
    rw [h0] at h
    cases h
  | c :: t =>
    have hlt := matchWsRaw_length h
    show subRawGo (c :: t).length (c :: t) = ' ' :: subRaw rest
    simp only [List.length_cons, subRawGo, h]
    unfold subRaw
    simp only [List.length_cons] at hlt
    exact congrArg _ (subRawGo_fuel (by omega) (Nat.le_refl _))

theorem subRaw_nomatch {c : Char} {t : List Char} (h : matchWsRaw (c :: t) = none) :
    subRaw (c :: t) = c :: subRaw t := by
  show subRawGo (c :: t).length (c :: t) = c :: subRaw t
  simp only [List.length_cons, subRawGo, h]
  rfl

/-- Embedding of `RAW_FLAG_PATTERN.search(text)`: it succeeds iff the literal `--raw`
occurs (case-insensitively) at some position. -/
def containsRaw : List Char → Bool
  | [] => false
  | c :: t => (matchRawCI (c :: t)).isSome || containsRaw t

/-- Embedding of `strip_raw_flag` (rule_router.py:148-156): if the marker pattern is
found, substitute every occurrence by a space and strip, returning the
flag `true`; otherwise return the text unchanged with `false`. -/
def strip_raw_flag (text : List Char) : List Char × Bool :=
  if containsRaw text then (pyStrip (subRaw text), true) else (text, false)

theorem charCI_not_space {c t : Char}
    (ht : t = '-' ∨ t = 'r' ∨ t = 'a' ∨ t = 'w') (h : charCI c t = true) :
    isSpaceC c = false := by
  by_contra hc
  simp only [Bool.not_eq_false] at hc
  unfold isSpaceC at hc
  simp only [Bool.or_eq_true, decide_eq_true_eq] at hc
  unfold charCI at h
  obtain (((((h1 | h1) | h1) | h1) | h1) | h1) := hc <;> subst h1 <;>
    obtain (h2 | h2 | h2 | h2) := ht <;> subst h2 <;> revert h <;> decide

theorem matchRawCI_cons_none {c : Char} {t : List Char} (h : charCI c '-' = false) :
    matchRawCI (c :: t) = none := by
  rcases t with _ | ⟨c2, _ | ⟨c3, _ | ⟨c4, _ | ⟨c5, rest⟩⟩⟩⟩ <;> simp [matchRawCI, h]

theorem matchRawCI_inv {l r : List Char} (h : matchRawCI l = some r) :
    ∃ c1 c2 c3 c4 c5, l = c1 :: c2 :: c3 :: c4 :: c5 :: r ∧
      charCI c1 '-' = true ∧ charCI c2 '-' = true ∧ charCI c3 'r' = true ∧
      charCI c4 'a' = true ∧ charCI c5 'w' = true := by
  unfold matchRawCI at h
  match l, h with
  | c1 :: c2 :: c3 :: c4 :: c5 :: rest, h =>
    by_cases hc : charCI c1 '-' && charCI c2 '-' && charCI c3 'r' && charCI c4 'a' && charCI c5 'w'
    · simp only [hc, if_true, Option.some.injEq] at h
      subst h
      simp only [Bool.and_eq_true] at hc
      exact ⟨c1, c2, c3, c4, c5, rfl, hc.1.1.1.1, hc.1.1.1.2, hc.1.1.2, hc.1.2, hc.2⟩
    · simp [hc] at h

theorem dropWs_cons_nonspace {c : Char} {t : List Char} (h : isSpaceC c = false) :
    dropWs (c :: t) = c :: t := by
  simp [dropWs, List.dropWhile, h]

theorem subRaw_head_nonspace {l : List Char} {d : Char} {rest : List Char}
    (h : subRaw l = d :: rest) (hd : isSpaceC d = false) :
    ∃ t, l = d :: t ∧ rest = subRaw t := by
  match hm : matchWsRaw l with
  | some r =>
    rw [subRaw_match hm] at h
    injection h with h1 h2
    subst h1
    simp [isSpaceC] at hd
  | none =>
    match l with
    | [] => rw [subRaw_nil] at h; cases h
    | c :: t =>
      rw [subRaw_nomatch hm] at h
      injection h with h1 h2
      subst h1
      exact ⟨t, rfl, h2.symm⟩

/-- The text produced by the substitution pass never starts with the
(case-insensitive) literal `--raw`. -/
theorem subRaw_never_starts_raw (l : List Char) : matchRawCI (subRaw l) = none := by
  cases hs : matchRawCI (subRaw l) with
  | none => rfl
  | some r =>
    exfalso
    obtain ⟨c1, c2, c3, c4, c5, hshape, h1, h2, h3, h4, h5⟩ := matchRawCI_inv hs
    obtain ⟨t1, hl1, hr1⟩ :=
      subRaw_head_nonspace hshape (charCI_not_space (Or.inl rfl) h1)
    obtain ⟨t2, hl2, hr2⟩ :=
      subRaw_head_nonspace hr1.symm (charCI_not_space (Or.inl rfl) h2)
    obtain ⟨t3, hl3, hr3⟩ :=
      subRaw_head_nonspace hr2.symm (charCI_not_space (Or.inr (Or.inl rfl)) h3)
    obtain ⟨t4, hl4, hr4⟩ :=
      subRaw_head_nonspace hr3.symm (charCI_not_space (Or.inr (Or.inr (Or.inl rfl))) h4)
    obtain ⟨t5, hl5, hr5⟩ :=
      subRaw_head_nonspace hr4.symm (charCI_not_space (Or.inr (Or.inr (Or.inr rfl))) h5)
    -- `l` itself starts with whitespace-free `--raw`, so the scanner
    -- would have matched there: contradiction with the copy step taken.
    have hlfull : l = c1 :: c2 :: c3 :: c4 :: c5 :: t5 := by
      rw [hl1, hl2, hl3, hl4, hl5]
    have hmatch : matchWsRaw l ≠ none := by
      unfold matchWsRaw
      rw [hlfull, dropWs_cons_nonspace (charCI_not_space (Or.inl rfl) h1)]
      unfold matchRawCI
      simp [h1, h2, h3, h4, h5]
    -- but the head-structure lemma steps are only available when the
    -- scanner did not match at `l`
    match hm : matchWsRaw l with
    | some rr =>
      rw [subRaw_match hm] at hshape
      injection hshape with hsp _
      exact absurd (charCI_not_space (Or.inl rfl) (hsp ▸ h1)) (by decide)
    | none => exact hmatch hm

/-- The substitution pass removes every occurrence of the marker: no
position of its output starts with `--raw`. -/
theorem containsRaw_subRaw (l : List Char) : containsRaw (subRaw l) = false := by
  match hm : matchWsRaw l with
  | some rest =>
    rw [subRaw_match hm]
    have h1 : matchRawCI (' ' :: subRaw rest) = none :=
      matchRawCI_cons_none (by decide)
    simp [containsRaw, h1, containsRaw_subRaw rest]
  | none =>
    match l with
    | [] => rw [subRaw_nil]; rfl
    | c :: t =>
      rw [subRaw_nomatch hm]
      have h1 : matchRawCI (c :: subRaw t) = none := by
        have h2 := subRaw_never_starts_raw (c :: t)
        rwa [subRaw_nomatch hm] at h2
      simp [containsRaw, h1, containsRaw_subRaw t]
termination_by l.length
decreasing_by
  · exact matchWsRaw_length hm
  · simp

theorem matchRawCI_append {l b : List Char} (h : (matchRawCI l).isSome = true) :
    (matchRawCI (l ++ b)).isSome = true := by
  cases hs : matchRawCI l with
  | none => rw [hs] at h; cases h
  | some r =>
    obtain ⟨c1, c2, c3, c4, c5, hshape, h1, h2, h3, h4, h5⟩ := matchRawCI_inv hs
    subst hshape
    simp [matchRawCI, h1, h2, h3, h4, h5]

theorem containsRaw_append_right {l : List Char} (b : List Char)
    (h : containsRaw l = true) : containsRaw (l ++ b) = true := by
  induction l with
  | nil => cases h
  | cons c t ih =>
    simp only [containsRaw, Bool.or_eq_true] at h
    rcases h with h | h
    · have := matchRawCI_append (l := c :: t) (b := b) h
      simp only [List.cons_append] at this ⊢
      simp [containsRaw, this]
    · simp [containsRaw, ih h]

theorem containsRaw_append_left (a : List Char) {l : List Char}
    (h : containsRaw l = true) : containsRaw (a ++ l) = true := by
  induction a with
  | nil => simpa using h
  | cons c t ih => simp [containsRaw, ih]

theorem containsRaw_of_infix {l m a b : List Char} (hl : l = a ++ m ++ b)
    (h : containsRaw m = true) : containsRaw l = true := by
  subst hl
  have h2 := containsRaw_append_left a (containsRaw_append_right b h)
  simpa [List.append_assoc] using h2

/-- The cleaned text of a detected raw flag is marker-free. -/
theorem containsRaw_cleaned (text : List Char) :
    containsRaw (pyStrip (subRaw text)) = false := by
  by_contra hc
  simp only [Bool.not_eq_false] at hc
  obtain ⟨a, b, hab⟩ := pyStrip_infix (subRaw text)
  have := containsRaw_of_infix hab hc
  rw [containsRaw_subRaw] at this
  cases this

/-- C8: the raw-flag extractor is idempotent — applying it to its own
cleaned output returns the same text with flag `false` (so the flag is
`true` at most on the first application), and when the marker is absent
the input is returned unchanged with flag `false`.  The embedded
function is pure, so there are no side effects. -/
theorem strip_raw_flag_idempotent (text : List Char) :
    strip_raw_flag (strip_raw_flag text).1 = ((strip_raw_flag text).1, false) ∧
    (containsRaw text = false → strip_raw_flag text = (text, false)) := by
  constructor
  · by_cases h : containsRaw text = true
    · have h1 : (strip_raw_flag text).1 = pyStrip (subRaw text) := by
        simp [strip_raw_flag, h]
      rw [h1]
      simp [strip_raw_flag, containsRaw_cleaned text]
    · simp only [Bool.not_eq_true] at h
      have h1 : (strip_raw_flag text).1 = text := by
        simp [strip_raw_flag, h]
      rw [h1]
      simp [strip_raw_flag, h]
  · intro h
    simp [strip_raw_flag, h]

/-- Witness for C8 at concrete inputs: a message carrying the marker,
cleaned once, is a fixed point with flag `false`; a message without the
marker is returned unchanged with flag `false`. -/
theorem strip_raw_flag_idempotent_witness :
    strip_raw_flag (strip_raw_flag (lchars "sprint status --raw")).1 =
      ((strip_raw_flag (lchars "sprint status --raw")).1, false) ∧
    strip_raw_flag (lchars "sprint status") = (lchars "sprint status", false) :=
  ⟨(strip_raw_flag_idempotent (lchars "sprint status --raw")).1,
   (strip_raw_flag_idempotent (lchars "sprint status")).2 (by decide)⟩

/-! ## Conversational classifier (`is_conversational`)

`is_conversational` (rule_router.py:302-318) lower-cases and strips the
text and applies `re.match` with six anchored patterns of the shape
`^(alt|alt|...)[\s!?.]*$`.  Such a pattern matches iff some alternative
is a prefix of the text and the remainder consists only of whitespace
and `!?.` characters.  The only non-literal alternative is
`good\s*(morning|afternoon|evening)`. -/

/-- Characters allowed after an alternative: the class `[\s!?.]`. -/
def trailerC (c : Char) : Bool := isSpaceC c || c = '!' || c = '?' || c = '.'

/-- The remainder after an alternative must be all trailer characters
(so that `[\s!?.]*$` consumes the rest of the string). -/
def trailerOk (l : List Char) : Bool := l.all trailerC

/-- Remove a literal prefix, if present. -/
def stripPre : List Char → List Char → Option (List Char)
  | [], l => some l
  | _ :: _, [] => none
  | p :: ps, c :: cs => if p = c then stripPre ps cs else none

/-- One alternative of a conversational pattern: a literal, or the
`good\s*(morning|afternoon|evening)` group. -/
inductive ConvAlt where
  | lit (s : String)
  | goodTime

/-- Match one alternative followed by the `[\s!?.]*$` trailer. -/
def convAltMatches (a : ConvAlt) (l : List Char) : Bool :=
  match a with
  | .lit s =>
    match stripPre s.toList l with
    | some r => trailerOk r
    | none => false
  | .goodTime =>
    match stripPre ("good".toList) l with
    | some r =>
      ["morning", "afternoon", "evening"].any fun w =>
        match stripPre w.toList (dropWs r) with
        | some r2 => trailerOk r2
        | none => false
    | none => false

/-- The six anchored conversational patterns, alternative by
alternative (rule_router.py:309-316). -/
def conversationalPatterns : List (List ConvAlt) :=
  [ [.lit "hi", .lit "hey", .lit "hello", .lit "yo", .lit "sup", .lit "howdy", .goodTime],
    [.lit "thanks", .lit "thank you", .lit "thx", .lit "ty", .lit "cheers", .lit "appreciated"],
    [.lit "bye", .lit "goodbye", .lit "see you", .lit "later", .lit "cya"],
    [.lit "yes", .lit "no", .lit "yep", .lit "nope", .lit "yeah", .lit "nah",
     .lit "ok", .lit "okay", .lit "sure", .lit "got it"],
    [.lit "help", .lit "what can you do", .lit "who are you", .lit "what are you"],
    [.lit "lol", .lit "haha", .lit "heh", .lit "nice", .lit "cool", .lit "great", .lit "awesome"] ]

/-- Embedding of `RuleBasedRouter.is_conversational` (rule_router.py:302-318). -/
def is_conversational (text : List Char) : Bool :=
  let tl := pyStrip (toLowerL text)
  conversationalPatterns.any fun alts => alts.any fun a => convAltMatches a tl

/-! ## Rule matcher (`RuleBasedRouter`)

A `RuleSet` is one skill's built rule set (rule_router.py:32-42) after
`_build_rule_sets`: triggers already lower-cased and stripped,
detection patterns and action-rule patterns compiled.  A compiled
pattern is only ever used through `pattern.search(text)`, so it is
embedded as a boolean predicate on text.  Python floats are embedded as
rationals. -/

/-- One skill's rule set (`RuleSet`, rule_router.py:32-42). -/
structure RuleSet where
  skillName : String
  supportsRaw : Bool
  triggers : List (List Char)
  patterns : List (List Char → Bool)
  actionRules : List ((List Char → Bool) × String)

/-- Python `needle in haystack` on strings: substring containment. -/
def isPrefixB : List Char → List Char → Bool
  | [], _ => true
  | _ :: _, [] => false
  | p :: ps, c :: cs => p = c && isPrefixB ps cs

def containsSub (n : List Char) : List Char → Bool
  | [] => isPrefixB n []
  | c :: t => isPrefixB n (c :: t) || containsSub n t

/-- Embedding of `RouteMatch` (rule_router.py:22-29). -/
structure RouteMatch where
  skillName : String
  action : String
  params : List (String × String)
  confidence : ℚ
  rawMode : Bool := false
deriving DecidableEq

/-- The rule router's configuration: the built rule sets in skill
registration order, the confidence threshold (default 0.5,
rule_router.py:165), and the e-mail regex search of `_extract_params`
as an oracle. -/
structure RuleRouter where
  ruleSets : List RuleSet
  threshold : ℚ := 1/2
  findEmail : List Char → Option String := fun _ => none

/-- Embedding of `RuleBasedRouter._score_match` (rule_router.py:258-277): trigger
substring scores folded by `max` starting from `0.0`, then the pattern
hit count converted to a score, the best of the two, capped at `1.0`. -/
def scoreMatch (textLower : List Char) (rs : RuleSet) : ℚ :=
  let s1 := rs.triggers.foldl
    (fun s t =>
      if containsSub t textLower then
        max s (7/10 + (t.length : ℚ) / (max textLower.length 1 : ℚ) * (3/10))
      else s)
    0
  let hits := rs.patterns.countP fun p => p textLower
  let s2 := if 0 < hits then max s1 (min (1/2 + (hits : ℚ) * (3/20)) (9/10)) else s1
  min s2 1

/-- The confidence formula in the words of the specification (spec.md
§4.3 step 1): the trigger-based score is the maximum over matching
triggers of `0.7 + 0.3 * len(trigger)/max(len(text),1)` capped at 1.0;
the pattern-based score is `min(0.5 + 0.15 * hit_count, 0.9)` when some
pattern hits and zero otherwise; the final confidence is the maximum of
the two, clamped to `[0, 1]`. -/
def specConfidence (textLower : List Char) (rs : RuleSet) : ℚ :=
  let trigScore :=
    ((rs.triggers.filter fun t => containsSub t textLower).map
      (fun t => min (7/10 + 3/10 * ((t.length : ℚ) / (max textLower.length 1 : ℚ))) 1)).foldl max 0
  let hits := rs.patterns.countP fun p => p textLower
  let patScore := if 0 < hits then min (1/2 + 3/20 * (hits : ℚ)) (9/10) else 0
  max (min (max trigScore patScore) 1) 0

theorem isPrefixB_length {n h : List Char} (hp : isPrefixB n h = true) :
    n.length ≤ h.length := by
  induction n generalizing h with
  | nil => simp
  | cons p ps ih =>
    match h with
    | [] => cases hp
    | c :: cs =>
      simp only [isPrefixB, Bool.and_eq_true] at hp
      simpa using ih hp.2

theorem containsSub_length {n h : List Char} (hc : containsSub n h = true) :
    n.length ≤ h.length := by
  induction h with
  | nil =>
    simp only [containsSub] at hc
    exact isPrefixB_length hc
  | cons c t ih =>
    simp only [containsSub, Bool.or_eq_true] at hc
    rcases hc with hc | hc
    · exact isPrefixB_length hc
    · simpa using Nat.le_succ_of_le (ih hc)

theorem trigger_ratio_le_one {t tl : List Char} (hc : containsSub t tl = true) :
    (t.length : ℚ) / (max tl.length 1 : ℚ) ≤ 1 := by
  have hlen := containsSub_length hc
  have hpos : (0 : ℚ) < (max tl.length 1 : ℚ) := by
    have : (1 : ℕ) ≤ max tl.length 1 := le_max_right _ _
    exact_mod_cast Nat.lt_of_lt_of_le Nat.zero_lt_one this
  rw [div_le_one hpos]
  have : t.length ≤ max tl.length 1 := le_trans hlen (le_max_left _ _)
  exact_mod_cast this

theorem foldl_if_max_eq {α : Type} (P : α → Bool) (f : α → ℚ) (l : List α) :
    ∀ a : ℚ, l.foldl (fun s t => if P t then max s (f t) else s) a =
      ((l.filter P).map f).foldl max a := by
  induction l with
  | nil => intro a; rfl
  | cons hd tl ih =>
    intro a
    by_cases h : P hd
    · simp only [List.foldl_cons, h, if_true, List.filter_cons, List.map_cons]
      exact ih (max a (f hd))
    · simp only [List.foldl_cons, h, if_false, List.filter_cons, Bool.false_eq_true,
        List.map_cons]
      exact ih a

theorem le_foldl_max (l : List ℚ) : ∀ a : ℚ, a ≤ l.foldl max a := by
  induction l with
  | nil => intro a; simp
  | cons hd tl ih =>
    intro a
    exact le_trans (le_max_left a hd) (ih (max a hd))

/-- C1: for every text and rule set, `_score_match` computes exactly the
confidence the specification describes — the maximum (not the sum) of
the capped trigger-substring score and the pattern-hit score
`min(0.5 + 0.15*hits, 0.9)`, clamped to `[0, 1]`, with the trigger
ratio denominator at least 1. -/
theorem score_match_spec (textLower : List Char) (rs : RuleSet) :
    scoreMatch textLower rs = specConfidence textLower rs := by
  unfold scoreMatch specConfidence
  set P : List Char → Bool := fun t => containsSub t textLower with hP
  set fcode : List Char → ℚ :=
    fun t => 7/10 + (t.length : ℚ) / (max textLower.length 1 : ℚ) * (3/10) with hf
  set fspec : List Char → ℚ :=
    fun t => min (7/10 + 3/10 * ((t.length : ℚ) / (max textLower.length 1 : ℚ))) 1 with hg
  have hfold := foldl_if_max_eq P fcode rs.triggers 0
  have hmapeq : (rs.triggers.filter P).map fspec = (rs.triggers.filter P).map fcode := by
    apply List.map_congr_left
    intro t ht
    have hPt : P t = true := List.of_mem_filter ht
    have hratio : (t.length : ℚ) / (max textLower.length 1 : ℚ) ≤ 1 := by
      rw [hP] at hPt
      exact trigger_ratio_le_one hPt
    have hle : 7/10 + 3/10 * ((t.length : ℚ) / (max textLower.length 1 : ℚ)) ≤ 1 := by
      nlinarith
    rw [hf, hg]
    simp only [min_eq_left hle]
    ring
  have hs1 : rs.triggers.foldl (fun s t => if P t then max s (fcode t) else s) 0 =
      ((rs.triggers.filter P).map fspec).foldl max 0 := by
    rw [hfold, hmapeq]
  have htrig_nonneg : (0 : ℚ) ≤ ((rs.triggers.filter P).map fspec).foldl max 0 :=
    le_foldl_max _ 0
  rw [hs1]
  set trig := ((rs.triggers.filter P).map fspec).foldl max 0
  set hits := rs.patterns.countP fun p => p textLower with hh
  by_cases hpos : 0 < hits
  · simp only [hpos, if_true]
    have hcomm : (hits : ℚ) * (3/20) = 3/20 * (hits : ℚ) := mul_comm _ _
    rw [hcomm]
    have hnn : (0 : ℚ) ≤ max trig (min (1/2 + 3/20 * (hits : ℚ)) (9/10)) :=
      le_trans htrig_nonneg (le_max_left _ _)
    exact (max_eq_left (le_min hnn zero_le_one)).symm
  · simp only [hpos, if_false]
    have h0 : max trig 0 = trig := max_eq_left htrig_nonneg
    rw [h0]
    exact (max_eq_left (le_min htrig_nonneg zero_le_one)).symm

/-- Embedding of `RuleBasedRouter._determine_action` (rule_router.py:279-288): first
matching action rule wins; otherwise the last declared rule's action;
`"status"` for an empty rule list. -/
def determineAction (textLower : List Char) (rs : RuleSet) : String :=
  match rs.actionRules.find? (fun pr => pr.1 textLower) with
  | some pr => pr.2
  | none =>
    match rs.actionRules.getLast? with
    | some pr => pr.2
    | none => "status"

/-- Embedding of `RuleBasedRouter._extract_params` (rule_router.py:290-300). -/
def extractParams (rr : RuleRouter) (textLower : List Char) (action : String) :
    List (String × String) :=
  if action = "mine" then
    match rr.findEmail textLower with
    | some e => [("action", action), ("assignee_email", e)]
    | none => [("action", action)]
  else [("action", action)]

/-- The `RouteMatch` built at rule_router.py:226-233. -/
def mkRouteMatch (rr : RuleRouter) (textLower : List Char) (rs : RuleSet) (conf : ℚ) :
    RouteMatch :=
  let action := determineAction textLower rs
  { skillName := rs.skillName, action := action,
    params := extractParams rr textLower action, confidence := conf }

/-- One iteration of the loop in `RuleBasedRouter.match`
(rule_router.py:218-233), acting on the accumulator
`(best_match, best_confidence)`. -/
def matchStep (rr : RuleRouter) (textLower : List Char) (enabled : List String)
    (acc : Option RouteMatch × ℚ) (rs : RuleSet) : Option RouteMatch × ℚ :=
  if enabled.contains rs.skillName then
    let conf := scoreMatch textLower rs
    if acc.2 < conf then (some (mkRouteMatch rr textLower rs conf), conf) else acc
  else acc

/-- Embedding of `RuleBasedRouter.match` (rule_router.py:207-247): fold over the rule
sets in registration order, then apply the confidence threshold.
Returning `none` is the normal no-match outcome (the Python code
returns `None`; no exception is raised). -/
def matchRoute (rr : RuleRouter) (text : List Char) (enabled : List String) :
    Option RouteMatch :=
  match (rr.ruleSets.foldl (matchStep rr (pyStrip (toLowerL text)) enabled) (none, 0)).1 with
  | some m => if rr.threshold <= m.confidence then some m else none
  | none => none

theorem matchStep_enabled_lt {rr : RuleRouter} {tl : List Char} {enabled : List String}
    {b : Option RouteMatch} {c : Rat} {rs : RuleSet}
    (he : enabled.contains rs.skillName = true) (hc : c < scoreMatch tl rs) :
    matchStep rr tl enabled (b, c) rs =
      (some (mkRouteMatch rr tl rs (scoreMatch tl rs)), scoreMatch tl rs) := by
  unfold matchStep
  dsimp only
  rw [if_pos he, if_pos hc]

theorem matchStep_enabled_ge {rr : RuleRouter} {tl : List Char} {enabled : List String}
    {b : Option RouteMatch} {c : Rat} {rs : RuleSet}
    (he : enabled.contains rs.skillName = true) (hc : ¬ c < scoreMatch tl rs) :
    matchStep rr tl enabled (b, c) rs = (b, c) := by
  unfold matchStep
  dsimp only
  rw [if_pos he, if_neg hc]

theorem matchStep_disabled {rr : RuleRouter} {tl : List Char} {enabled : List String}
    {b : Option RouteMatch} {c : Rat} {rs : RuleSet}
    (he : enabled.contains rs.skillName = false) :
    matchStep rr tl enabled (b, c) rs = (b, c) := by
  unfold matchStep
  dsimp only
  rw [if_neg (by rw [he]; exact Bool.false_ne_true)]

/-- Invariant of the selection loop of `RuleBasedRouter.match`: the fold
either leaves the accumulator untouched (every enabled score is at most
the accumulated confidence) or ends at the first enabled rule set whose
score strictly exceeds everything before it and is not exceeded later
— Python updates only on `confidence > best_confidence`, so ties keep
the earlier skill. -/
theorem matchFold_spec (rr : RuleRouter) (tl : List Char) (enabled : List String) :
    ∀ (l : List RuleSet) (b : Option RouteMatch) (c : Rat),
    (l.foldl (matchStep rr tl enabled) (b, c) = (b, c) ∧
      ∀ rs ∈ l.filter (fun rs => enabled.contains rs.skillName), scoreMatch tl rs <= c) ∨
    (∃ pre rs post,
      l.filter (fun rs => enabled.contains rs.skillName) = pre ++ rs :: post ∧
      l.foldl (matchStep rr tl enabled) (b, c) =
        (some (mkRouteMatch rr tl rs (scoreMatch tl rs)), scoreMatch tl rs) ∧
      c < scoreMatch tl rs ∧
      (∀ p ∈ pre, scoreMatch tl p < scoreMatch tl rs) ∧
      (∀ p ∈ post, scoreMatch tl p <= scoreMatch tl rs)) := by
  intro l
  induction l with
  | nil =>
    intro b c
    left
    exact ⟨rfl, by simp⟩
  | cons hd tl' ih =>
    intro b c
    cases he : enabled.contains hd.skillName with
    | true =>
      by_cases hc : c < scoreMatch tl hd
      · have hstep := @matchStep_enabled_lt rr tl enabled b c hd he hc
        have hfilc : (hd :: tl').filter (fun rs => enabled.contains rs.skillName) =
            hd :: tl'.filter (fun rs => enabled.contains rs.skillName) := by
          rw [List.filter_cons, if_pos he]
        rcases ih (some (mkRouteMatch rr tl hd (scoreMatch tl hd))) (scoreMatch tl hd) with
          ⟨hr, hbound⟩ | ⟨pre, rs, post, hfil, hr, hlt, hpre, hpost⟩
        · right
          refine ⟨[], hd, tl'.filter (fun rs => enabled.contains rs.skillName),
            ?_, ?_, hc, by simp, hbound⟩
          · rw [hfilc]
            rfl
          · rw [List.foldl_cons, hstep]
            exact hr
        · right
          refine ⟨hd :: pre, rs, post, ?_, ?_, lt_trans hc hlt, ?_, hpost⟩
          · rw [hfilc, hfil]
            rfl
          · rw [List.foldl_cons, hstep]
            exact hr
          · intro p hp
            rcases List.mem_cons.mp hp with hp | hp
            · subst hp
              exact hlt
            · exact hpre p hp
      · have hstep := @matchStep_enabled_ge rr tl enabled b c hd he hc
        push_neg at hc
        have hfilc : (hd :: tl').filter (fun rs => enabled.contains rs.skillName) =
            hd :: tl'.filter (fun rs => enabled.contains rs.skillName) := by
          rw [List.filter_cons, if_pos he]
        rcases ih b c with ⟨hr, hbound⟩ | ⟨pre, rs, post, hfil, hr, hlt, hpre, hpost⟩
        · left
          refine ⟨by rw [List.foldl_cons, hstep]; exact hr, ?_⟩
          rw [hfilc]
          intro p hp
          rcases List.mem_cons.mp hp with hp | hp
          · subst hp
            exact hc
          · exact hbound p hp
        · right
          refine ⟨hd :: pre, rs, post, ?_, ?_, hlt, ?_, hpost⟩
          · rw [hfilc, hfil]
            rfl
          · rw [List.foldl_cons, hstep]
            exact hr
          · intro p hp
            rcases List.mem_cons.mp hp with hp | hp
            · subst hp
              exact lt_of_le_of_lt hc hlt
            · exact hpre p hp
    | false =>
      have hstep := @matchStep_disabled rr tl enabled b c hd he
      have hfilc : (hd :: tl').filter (fun rs => enabled.contains rs.skillName) =
          tl'.filter (fun rs => enabled.contains rs.skillName) := by
        rw [List.filter_cons, if_neg (by rw [he]; exact Bool.false_ne_true)]
      rcases ih b c with ⟨hr, hbound⟩ | ⟨pre, rs, post, hfil, hr, hlt, hpre, hpost⟩
      · left
        refine ⟨by rw [List.foldl_cons, hstep]; exact hr, ?_⟩
        rw [hfilc]
        exact hbound
      · right
        refine ⟨pre, rs, post, ?_, ?_, hlt, hpre, hpost⟩
        · rw [hfilc]
          exact hfil
        · rw [List.foldl_cons, hstep]
          exact hr

theorem mkRouteMatch_confidence (rr : RuleRouter) (tl : List Char) (rs : RuleSet)
    (conf : Rat) : (mkRouteMatch rr tl rs conf).confidence = conf := rfl

/-- C2: `RuleBasedRouter.match` returns the enabled skill with the
strictly highest confidence — the winner's score strictly exceeds every
earlier enabled rule set's score and is not exceeded by any later one,
so ties keep the first skill in iteration order — and only if that
confidence reaches the threshold; when every enabled score is below the
threshold the result is `none`, the normal no-match outcome of the
total function (no exception). -/
theorem match_route_spec (rr : RuleRouter) (text : List Char) (enabled : List String) :
    (∀ m, matchRoute rr text enabled = some m →
      rr.threshold <= m.confidence ∧
      ∃ pre rs post,
        rr.ruleSets.filter (fun rs => enabled.contains rs.skillName) = pre ++ rs :: post ∧
        m = mkRouteMatch rr (pyStrip (toLowerL text)) rs
              (scoreMatch (pyStrip (toLowerL text)) rs) ∧
        m.confidence = scoreMatch (pyStrip (toLowerL text)) rs ∧
        (∀ p ∈ pre, scoreMatch (pyStrip (toLowerL text)) p < m.confidence) ∧
        (∀ p ∈ post, scoreMatch (pyStrip (toLowerL text)) p <= m.confidence)) ∧
    ((∀ rs ∈ rr.ruleSets.filter (fun rs => enabled.contains rs.skillName),
        scoreMatch (pyStrip (toLowerL text)) rs < rr.threshold) →
      matchRoute rr text enabled = none) := by
  have hfold := matchFold_spec rr (pyStrip (toLowerL text)) enabled rr.ruleSets none 0
  constructor
  · intro m hm
    unfold matchRoute at hm
    rcases hfold with ⟨hr, _⟩ | ⟨pre, rs, post, hfil, hr, _, hpre, hpost⟩
    · rw [hr] at hm
      cases hm
    · rw [hr] at hm
      dsimp only at hm
      rw [mkRouteMatch_confidence] at hm
      by_cases hth : rr.threshold <= scoreMatch (pyStrip (toLowerL text)) rs
      · rw [if_pos hth] at hm
        injection hm with hm
        subst hm
        rw [mkRouteMatch_confidence]
        refine ⟨hth, pre, rs, post, hfil, rfl, rfl, hpre, hpost⟩
      · rw [if_neg hth] at hm
        cases hm
  · intro hall
    unfold matchRoute
    rcases hfold with ⟨hr, _⟩ | ⟨pre, rs, post, hfil, hr, _, hpre, hpost⟩
    · rw [hr]
    · rw [hr]
      dsimp only
      rw [mkRouteMatch_confidence]
      have hrs : rs ∈ rr.ruleSets.filter (fun rs => enabled.contains rs.skillName) := by
        rw [hfil]
        exact List.mem_append_right pre (List.mem_cons_self rs post)
      rw [if_neg (not_le.mpr (hall rs hrs))]

theorem find?_append_none {α : Type} (f : α → Bool) :
    ∀ (l1 l2 : List α), l1.find? f = none → (l1 ++ l2).find? f = l2.find? f := by
  intro l1 l2 h
  induction l1 with
  | nil => rfl
  | cons hd tl ih =>
    rw [List.find?_cons] at h
    cases hf : f hd with
    | true => rw [hf] at h; cases h
    | false =>
      rw [hf] at h
      simp only [List.cons_append, List.find?_cons, hf]
      exact ih h

/-- C3: `_determine_action` scans the skill's action rules in
declaration order — the first rule whose pattern matches provides the
action, so when two rules match, the earlier-declared one wins — and
when no rule matches, the action of the last declared rule is the
fallback. -/
theorem determine_action_spec (textLower : List Char) (rs : RuleSet) :
    (∀ pre p a post, rs.actionRules = pre ++ (p, a) :: post →
      p textLower = true → (∀ q ∈ pre, q.1 textLower = false) →
      determineAction textLower rs = a) ∧
    (∀ init p a, rs.actionRules = init ++ [(p, a)] →
      (∀ q ∈ rs.actionRules, q.1 textLower = false) →
      determineAction textLower rs = a) := by
  constructor
  · intro pre p a post hshape hp hq
    unfold determineAction
    rw [hshape]
    have hpre : pre.find? (fun pr => pr.1 textLower) = none := by
      rw [List.find?_eq_none]
      intro x hx
      simp [hq x hx]
    rw [find?_append_none _ pre _ hpre, List.find?_cons]
    dsimp only
    rw [hp]
  · intro init p a hshape hall
    unfold determineAction
    have hnone : rs.actionRules.find? (fun pr => pr.1 textLower) = none := by
      rw [List.find?_eq_none]
      intro x hx
      simp [hall x hx]
    rw [hnone, hshape, List.getLast?_concat]

/-- A registered skill as the routing engine sees it: its name and
whether it supports raw output (`SkillDefinition` as consumed by
`_build_rule_sets` and `supports_raw`). -/
structure SkillDef where
  name : String
  supportsRaw : Bool

/-- Embedding of `RuleBasedRouter.supports_raw` (rule_router.py:249-256): prefer the
built rule set, fall back to the registry, else `false`. -/
def supportsRawQ (rr : RuleRouter) (registry : List SkillDef) (name : String) : Bool :=
  match rr.ruleSets.find? (fun rs => rs.skillName == name) with
  | some rs => rs.supportsRaw
  | none =>
    match registry.find? (fun s => s.name == name) with
    | some s => s.supportsRaw
    | none => false

/-- Embedding of `SkillRegistry.get_tools_for_tenant` (registry.py:72-90): one tool
definition per enabled skill that is registered, in enabled-list order.
Tools are represented by the skill name that would go into the
`ToolDefinition`. -/
def getToolsForTenant (registry : List SkillDef) (enabledSkills : List String) :
    List String :=
  enabledSkills.filter fun n => registry.any fun s => s.name == n

/-! ## The chat orchestrator (`_handle_chat`, dev_server.py:287-516)

External collaborators are oracles in an environment: `aiChat` embeds
`ai.chat(model, system, messages, tools)` (model id and system prompt
are fixed per request, so only messages and tools are tracked),
`aiChatWithToolResult` embeds `ai.chat_with_tool_result`, `invokeSkill`
embeds `bus.publish_skill_invocation` followed by
`bus.get_result(request_id)` (which may return nothing), and
`formatRaw` embeds `_format_raw_json`.  A Python exception from a
collaborator is an `Except.error`. -/

/-- Embedding of `ToolCall` (ai_provider.py:21-26). -/
structure ToolCall where
  toolName : String
  toolParams : List (String × String)
  toolUseId : String
deriving DecidableEq

/-- Embedding of `AIResponse` (ai_provider.py:29-40). -/
structure ModelResponse where
  text : Option String
  toolCalls : List ToolCall
  inputTokens : Nat
  outputTokens : Nat
deriving DecidableEq

/-- Embedding of `AIResponse.has_tool_use`: `len(self.tool_calls) > 0`. -/
def ModelResponse.hasToolUse (r : ModelResponse) : Bool := decide (0 < r.toolCalls.length)

/-- A message sent to the model: a user turn, an assistant text turn
(history), or the assistant tool-use block built at
dev_server.py:456-468. -/
inductive ChatMsg where
  | user (content : String)
  | assistantText (content : String)
  | assistantToolUse (id : String) (name : String) (params : List (String × String))
deriving DecidableEq

/-- A skill's structured result: payload data, or the `error` marker
shape used both by `DirectBus` and by the no-result fallback. -/
inductive SkillResult where
  | payload (s : String)
  | errorMarker (reason : String)
deriving DecidableEq

/-- The no-result marker (dev_server.py:360-361). -/
def noResult : SkillResult := .errorMarker "Skill returned no result"

/-- Exception text. -/
abbrev Err := String

/-- The collaborators and tenant configuration visible to
`_handle_chat`. -/
structure Env where
  enabledSkills : List String
  registry : List SkillDef
  history : List ChatMsg
  aiChat : List ChatMsg → List String → Except Err ModelResponse
  aiChatWithToolResult :
    List ChatMsg → List String → String → SkillResult → Except Err ModelResponse
  invokeSkill : String → List (String × String) → Except Err (Option SkillResult)
  formatRaw : SkillResult → String

/-- The format prompt built at dev_server.py:385-393 (system prefix and
fixed instruction text elided to their fixed skeleton). -/
def mkFormatPrompt (clean : String) (skillName : String) (serialized : String) : String :=
  "The user asked: " ++ clean ++ "\nYou called the " ++ skillName ++
    " tool and got this data:\n" ++ serialized ++ "\nFormat this data into a clear, helpful response for the user."

/-- What the body of the `try` block produces before the save/response
steps: the reply text, token total, route label, the raw-response flag,
and the collaborator calls that were made. -/
structure BodyResult where
  replyText : String
  tokens : Nat
  route : String
  isRawResponse : Bool
  modelCalls : List (List ChatMsg × List String)
  toolResultCalls : List (List ChatMsg × List String × String × SkillResult)
  skillInvocations : List (String × List (String × String))
deriving DecidableEq

/-- The routing body of `_handle_chat` (dev_server.py:319-491): tier 0
conversational, tier 1 rule-based (with the raw branch), tier 2 full
model routing (first tool call only, with the raw branch). -/
def chatBody (env : Env) (rr : RuleRouter) (cleanText : List Char) (isRaw : Bool) :
    Except Err BodyResult :=
  if !isRaw && is_conversational cleanText then
    match env.aiChat (env.history ++ [.user (listToStr cleanText)]) [] with
    | .error e => .error e
    | .ok resp =>
      .ok { replyText := resp.text.getD "Hey! How can I help?",
            tokens := resp.inputTokens + resp.outputTokens,
            route := "conversational", isRawResponse := false,
            modelCalls := [(env.history ++ [.user (listToStr cleanText)], [])],
            toolResultCalls := [], skillInvocations := [] }
  else
    match matchRoute rr cleanText env.enabledSkills with
    | some m =>
      match env.invokeSkill m.skillName m.params with
      | .error e => .error e
      | .ok optRes =>
        let skillResult := optRes.getD noResult
        if isRaw && supportsRawQ rr env.registry m.skillName then
          .ok { replyText := env.formatRaw skillResult, tokens := 0,
                route := "rule", isRawResponse := true,
                modelCalls := [], toolResultCalls := [],
                skillInvocations := [(m.skillName, m.params)] }
        else
          match env.aiChat
              (env.history ++
                [.user (mkFormatPrompt (listToStr cleanText) m.skillName
                  (env.formatRaw skillResult))]) [] with
          | .error e => .error e
          | .ok resp =>
            .ok { replyText := resp.text.getD "Got the data but could not format it.",
                  tokens := resp.inputTokens + resp.outputTokens,
                  route := "rule", isRawResponse := false,
                  modelCalls := [(env.history ++
                    [.user (mkFormatPrompt (listToStr cleanText) m.skillName
                      (env.formatRaw skillResult))], [])],
                  toolResultCalls := [],
                  skillInvocations := [(m.skillName, m.params)] }
    | none =>
      match env.aiChat (env.history ++ [.user (listToStr cleanText)])
          (getToolsForTenant env.registry env.enabledSkills) with
      | .error e => .error e
      | .ok resp =>
        match resp.toolCalls with
        | tc :: _ =>
          match env.invokeSkill tc.toolName tc.toolParams with
          | .error e => .error e
          | .ok optRes =>
            let skillResult := optRes.getD noResult
            if isRaw && supportsRawQ rr env.registry tc.toolName then
              .ok { replyText := env.formatRaw skillResult,
                    tokens := resp.inputTokens + resp.outputTokens,
                    route := "ai", isRawResponse := true,
                    modelCalls := [(env.history ++ [.user (listToStr cleanText)],
                      getToolsForTenant env.registry env.enabledSkills)],
                    toolResultCalls := [],
                    skillInvocations := [(tc.toolName, tc.toolParams)] }
            else
              match env.aiChatWithToolResult
                  (env.history ++ [.user (listToStr cleanText),
                    .assistantToolUse tc.toolUseId tc.toolName tc.toolParams])
                  (getToolsForTenant env.registry env.enabledSkills)
                  tc.toolUseId skillResult with
              | .error e => .error e
              | .ok finalResp =>
                .ok { replyText := finalResp.text.getD "Got the data but could not format it.",
                      tokens := resp.inputTokens + resp.outputTokens +
                        finalResp.inputTokens + finalResp.outputTokens,
                      route := "ai", isRawResponse := false,
                      modelCalls := [(env.history ++ [.user (listToStr cleanText)],
                        getToolsForTenant env.registry env.enabledSkills)],
                      toolResultCalls := [(env.history ++ [.user (listToStr cleanText),
                        .assistantToolUse tc.toolUseId tc.toolName tc.toolParams],
                        getToolsForTenant env.registry env.enabledSkills,
                        tc.toolUseId, skillResult)],
                      skillInvocations := [(tc.toolName, tc.toolParams)] }
        | [] =>
          .ok { replyText := resp.text.getD "I am not sure how to help with that.",
                tokens := resp.inputTokens + resp.outputTokens,
                route := "ai", isRawResponse := false,
                modelCalls := [(env.history ++ [.user (listToStr cleanText)],
                  getToolsForTenant env.registry env.enabledSkills)],
                toolResultCalls := [], skillInvocations := [] }

/-- The JSON reply of `_handle_chat`: either the success payload of
dev_server.py:504-511 or an error status with its body. -/
inductive HttpReply where
  | ok (text : String) (tokens : Nat) (route : String) (raw : Bool)
  | err (status : Nat) (message : String)
deriving DecidableEq

/-- Everything observable about one handled chat request: the HTTP
reply, the collaborator calls, the turns persisted to conversation
history, and the error-counter increment. -/
structure ChatOutcome where
  reply : HttpReply
  modelCalls : List (List ChatMsg × List String)
  toolResultCalls : List (List ChatMsg × List String × String × SkillResult)
  skillInvocations : List (String × List (String × String))
  savedTurns : List (String × String)
  errorsDelta : Nat
deriving DecidableEq

/-- Embedding of `_handle_chat` (dev_server.py:287-516): strip the body text, reject
an empty message, extract the raw flag, run the routing body, persist
the turn unless the reply was raw output, and answer; any exception
from the body is caught and turned into a 500 reply carrying `str(e)`,
with the error counter bumped and nothing persisted. -/
def handleChat (env : Env) (rr : RuleRouter) (text : List Char) : ChatOutcome :=
  if (pyStrip text).isEmpty then
    { reply := .err 400 "Empty message", modelCalls := [], toolResultCalls := [],
      skillInvocations := [], savedTurns := [], errorsDelta := 0 }
  else
    match chatBody env rr (strip_raw_flag (pyStrip text)).1 (strip_raw_flag (pyStrip text)).2 with
    | .error e =>
      { reply := .err 500 e, modelCalls := [], toolResultCalls := [],
        skillInvocations := [], savedTurns := [], errorsDelta := 1 }
    | .ok b =>
      { reply := .ok b.replyText b.tokens b.route b.isRawResponse,
        modelCalls := b.modelCalls, toolResultCalls := b.toolResultCalls,
        skillInvocations := b.skillInvocations,
        savedTurns :=
          if b.isRawResponse then []
          else [(listToStr (strip_raw_flag (pyStrip text)).1, b.replyText)],
        errorsDelta := 0 }

theorem handleChat_of_body_ok (env : Env) (rr : RuleRouter) (text : List Char)
    {b : BodyResult} (hne : (pyStrip text).isEmpty = false)
    (hb : chatBody env rr (strip_raw_flag (pyStrip text)).1
      (strip_raw_flag (pyStrip text)).2 = .ok b) :
    handleChat env rr text =
      { reply := .ok b.replyText b.tokens b.route b.isRawResponse,
        modelCalls := b.modelCalls, toolResultCalls := b.toolResultCalls,
        skillInvocations := b.skillInvocations,
        savedTurns :=
          if b.isRawResponse then []
          else [(listToStr (strip_raw_flag (pyStrip text)).1, b.replyText)],
        errorsDelta := 0 } := by
  unfold handleChat
  rw [if_neg (by rw [hne]; exact Bool.false_ne_true), hb]

theorem handleChat_of_body_error (env : Env) (rr : RuleRouter) (text : List Char)
    {e : Err} (hne : (pyStrip text).isEmpty = false)
    (hb : chatBody env rr (strip_raw_flag (pyStrip text)).1
      (strip_raw_flag (pyStrip text)).2 = .error e) :
    handleChat env rr text =
      { reply := .err 500 e, modelCalls := [], toolResultCalls := [],
        skillInvocations := [], savedTurns := [], errorsDelta := 1 } := by
  unfold handleChat
  rw [if_neg (by rw [hne]; exact Bool.false_ne_true), hb]

theorem chatBody_conversational (env : Env) (rr : RuleRouter) (clean : List Char)
    (hconv : is_conversational clean = true) {resp : ModelResponse}
    (hai : env.aiChat (env.history ++ [.user (listToStr clean)]) [] = .ok resp) :
    chatBody env rr clean false =
      .ok { replyText := resp.text.getD "Hey! How can I help?",
            tokens := resp.inputTokens + resp.outputTokens,
            route := "conversational", isRawResponse := false,
            modelCalls := [(env.history ++ [.user (listToStr clean)], [])],
            toolResultCalls := [], skillInvocations := [] } := by
  unfold chatBody
  rw [if_pos (by rw [hconv]; rfl), hai]

theorem chatBody_rule_raw (env : Env) (rr : RuleRouter) (clean : List Char)
    {m : RouteMatch} {r : Option SkillResult}
    (hmatch : matchRoute rr clean env.enabledSkills = some m)
    (hraw : supportsRawQ rr env.registry m.skillName = true)
    (hinv : env.invokeSkill m.skillName m.params = .ok r) :
    chatBody env rr clean true =
      .ok { replyText := env.formatRaw (r.getD noResult), tokens := 0,
            route := "rule", isRawResponse := true,
            modelCalls := [], toolResultCalls := [],
            skillInvocations := [(m.skillName, m.params)] } := by
  unfold chatBody
  rw [if_neg (by simp)]
  rw [hmatch]
  dsimp only
  rw [hinv]
  dsimp only
  rw [if_pos (by rw [hraw]; rfl)]

theorem chatBody_rule_narrated (env : Env) (rr : RuleRouter) (clean : List Char)
    (isRaw : Bool) {m : RouteMatch} {r : Option SkillResult} {resp : ModelResponse}
    (hskip : (!isRaw && is_conversational clean) = false)
    (hmatch : matchRoute rr clean env.enabledSkills = some m)
    (hnoraw : (isRaw && supportsRawQ rr env.registry m.skillName) = false)
    (hinv : env.invokeSkill m.skillName m.params = .ok r)
    (hai : env.aiChat
      (env.history ++ [.user (mkFormatPrompt (listToStr clean) m.skillName
        (env.formatRaw (r.getD noResult)))]) [] = .ok resp) :
    chatBody env rr clean isRaw =
      .ok { replyText := resp.text.getD "Got the data but could not format it.",
            tokens := resp.inputTokens + resp.outputTokens,
            route := "rule", isRawResponse := false,
            modelCalls := [(env.history ++
              [.user (mkFormatPrompt (listToStr clean) m.skillName
                (env.formatRaw (r.getD noResult)))], [])],
            toolResultCalls := [],
            skillInvocations := [(m.skillName, m.params)] } := by
  unfold chatBody
  rw [if_neg (by rw [hskip]; exact Bool.false_ne_true)]
  rw [hmatch]
  dsimp only
  rw [hinv]
  dsimp only
  rw [if_neg (by rw [hnoraw]; exact Bool.false_ne_true)]
  rw [hai]

theorem chatBody_model_direct (env : Env) (rr : RuleRouter) (clean : List Char)
    (isRaw : Bool) {resp : ModelResponse}
    (hskip : (!isRaw && is_conversational clean) = false)
    (hnomatch : matchRoute rr clean env.enabledSkills = none)
    (hai : env.aiChat (env.history ++ [.user (listToStr clean)])
      (getToolsForTenant env.registry env.enabledSkills) = .ok resp)
    (hnotool : resp.toolCalls = []) :
    chatBody env rr clean isRaw =
      .ok { replyText := resp.text.getD "I am not sure how to help with that.",
            tokens := resp.inputTokens + resp.outputTokens,
            route := "ai", isRawResponse := false,
            modelCalls := [(env.history ++ [.user (listToStr clean)],
              getToolsForTenant env.registry env.enabledSkills)],
            toolResultCalls := [], skillInvocations := [] } := by
  unfold chatBody
  rw [if_neg (by rw [hskip]; exact Bool.false_ne_true)]
  rw [hnomatch]
  dsimp only
  rw [hai]
  dsimp only
  rw [hnotool]

theorem chatBody_model_tool_narrated (env : Env) (rr : RuleRouter) (clean : List Char)
    (isRaw : Bool) {resp finalResp : ModelResponse} {tc : ToolCall} {rest : List ToolCall}
    {r : Option SkillResult}
    (hskip : (!isRaw && is_conversational clean) = false)
    (hnomatch : matchRoute rr clean env.enabledSkills = none)
    (hai : env.aiChat (env.history ++ [.user (listToStr clean)])
      (getToolsForTenant env.registry env.enabledSkills) = .ok resp)
    (htc : resp.toolCalls = tc :: rest)
    (hinv : env.invokeSkill tc.toolName tc.toolParams = .ok r)
    (hnoraw : (isRaw && supportsRawQ rr env.registry tc.toolName) = false)
    (hfinal : env.aiChatWithToolResult
      (env.history ++ [.user (listToStr clean),
        .assistantToolUse tc.toolUseId tc.toolName tc.toolParams])
      (getToolsForTenant env.registry env.enabledSkills)
      tc.toolUseId (r.getD noResult) = .ok finalResp) :
    chatBody env rr clean isRaw =
      .ok { replyText := finalResp.text.getD "Got the data but could not format it.",
            tokens := resp.inputTokens + resp.outputTokens +
              finalResp.inputTokens + finalResp.outputTokens,
            route := "ai", isRawResponse := false,
            modelCalls := [(env.history ++ [.user (listToStr clean)],
              getToolsForTenant env.registry env.enabledSkills)],
            toolResultCalls := [(env.history ++ [.user (listToStr clean),
              .assistantToolUse tc.toolUseId tc.toolName tc.toolParams],
              getToolsForTenant env.registry env.enabledSkills,
              tc.toolUseId, r.getD noResult)],
            skillInvocations := [(tc.toolName, tc.toolParams)] } := by
  unfold chatBody
  rw [if_neg (by rw [hskip]; exact Bool.false_ne_true)]
  rw [hnomatch]
  dsimp only
  rw [hai]
  dsimp only
  rw [htc]
  dsimp only
  rw [hinv]
  dsimp only
  rw [if_neg (by rw [hnoraw]; exact Bool.false_ne_true)]
  rw [hfinal]

theorem chatBody_model_tool_raw (env : Env) (rr : RuleRouter) (clean : List Char)
    (isRaw : Bool) {resp : ModelResponse} {tc : ToolCall} {rest : List ToolCall}
    {r : Option SkillResult}
    (hskip : (!isRaw && is_conversational clean) = false)
    (hnomatch : matchRoute rr clean env.enabledSkills = none)
    (hai : env.aiChat (env.history ++ [.user (listToStr clean)])
      (getToolsForTenant env.registry env.enabledSkills) = .ok resp)
    (htc : resp.toolCalls = tc :: rest)
    (hinv : env.invokeSkill tc.toolName tc.toolParams = .ok r)
    (hx : (isRaw && supportsRawQ rr env.registry tc.toolName) = true) :
    chatBody env rr clean isRaw =
      .ok { replyText := env.formatRaw (r.getD noResult),
            tokens := resp.inputTokens + resp.outputTokens,
            route := "ai", isRawResponse := true,
            modelCalls := [(env.history ++ [.user (listToStr clean)],
              getToolsForTenant env.registry env.enabledSkills)],
            toolResultCalls := [],
            skillInvocations := [(tc.toolName, tc.toolParams)] } := by
  unfold chatBody
  rw [if_neg (by rw [hskip]; exact Bool.false_ne_true)]
  rw [hnomatch]
  dsimp only
  rw [hai]
  dsimp only
  rw [htc]
  dsimp only
  rw [hinv]
  dsimp only
  rw [if_pos hx]

/-- The skill dispatch of `Router.handle_message` (router.py:137-151):
when the response has tool use, a skill invocation is published for
EVERY tool call of the response, in order. -/
def routerToolDispatch (resp : ModelResponse) : List (String × List (String × String)) :=
  if resp.hasToolUse then resp.toolCalls.map (fun tc => (tc.toolName, tc.toolParams))
  else []

/-! ## Concrete fixtures for witnesses -/

/-- Concrete fixture: a rule set for the `sprint_status` skill, with a
trigger, a detection pattern and two action rules. -/
def wSprintRules : RuleSet where
  skillName := "sprint_status"
  supportsRaw := true
  triggers := [lchars "sprint"]
  patterns := [fun tl => containsSub (lchars "block") tl]
  actionRules :=
    [(fun tl => containsSub (lchars "block") tl, "blockers"),
     (fun tl => containsSub (lchars "sprint") tl, "status")]

/-- The same rule set for a skill that does not support raw output. -/
def wSprintRulesNoRaw : RuleSet := { wSprintRules with supportsRaw := false }

/-- Concrete fixture: a router with the single rule set above and the
default threshold `0.5`. -/
def wRouter : RuleRouter where
  ruleSets := [wSprintRules]

/-- The same router over the raw-less rule set. -/
def wRouterNoRaw : RuleRouter where
  ruleSets := [wSprintRulesNoRaw]

/-- The route match produced for the message `"sprint"`. -/
def wMatch : RouteMatch :=
  { skillName := "sprint_status", action := "status",
    params := [("action", "status")], confidence := 1 }

theorem wscore_sprint : scoreMatch (lchars "sprint") wSprintRules = 1 := by
  have hpat : (List.countP (fun p => p (lchars "sprint")) wSprintRules.patterns) = 0 := by
    decide
  have htrig : containsSub (lchars "sprint") (lchars "sprint") = true := by decide
  have hlen : (lchars "sprint").length = 6 := by decide
  unfold scoreMatch
  rw [hpat]
  simp only [wSprintRules, List.foldl_cons, List.foldl_nil, htrig, if_true, hlen]
  norm_num [max_def, min_def]

theorem wscore_sprint_noraw : scoreMatch (lchars "sprint") wSprintRulesNoRaw = 1 := by
  have h : scoreMatch (lchars "sprint") wSprintRulesNoRaw =
      scoreMatch (lchars "sprint") wSprintRules := rfl
  rw [h, wscore_sprint]

theorem wmk_eval : mkRouteMatch wRouter (lchars "sprint") wSprintRules 1 = wMatch := by
  have hact : determineAction (lchars "sprint") wSprintRules = "status" := by decide
  have hpar : extractParams wRouter (lchars "sprint") "status" = [("action", "status")] := by
    decide
  simp only [mkRouteMatch, hact, hpar]
  rfl

theorem wmk_eval_noraw :
    mkRouteMatch wRouterNoRaw (lchars "sprint") wSprintRulesNoRaw 1 = wMatch := by
  have hact : determineAction (lchars "sprint") wSprintRulesNoRaw = "status" := by decide
  have hpar : extractParams wRouterNoRaw (lchars "sprint") "status" = [("action", "status")] := by
    decide
  simp only [mkRouteMatch, hact, hpar]
  rfl

theorem wmatch_eval :
    matchRoute wRouter (lchars "sprint") ["sprint_status"] = some wMatch := by
  have htl : pyStrip (toLowerL (lchars "sprint")) = lchars "sprint" := by decide
  unfold matchRoute
  rw [htl]
  rw [show wRouter.ruleSets = [wSprintRules] from rfl]
  rw [List.foldl_cons,
    matchStep_enabled_lt (by decide) (by rw [wscore_sprint]; norm_num),
    List.foldl_nil, wscore_sprint]
  dsimp only
  rw [if_pos (by rw [mkRouteMatch_confidence, show wRouter.threshold = 1/2 from rfl]; norm_num)]
  rw [wmk_eval]

theorem wmatch_eval_noraw :
    matchRoute wRouterNoRaw (lchars "sprint") ["sprint_status"] = some wMatch := by
  have htl : pyStrip (toLowerL (lchars "sprint")) = lchars "sprint" := by decide
  unfold matchRoute
  rw [htl]
  rw [show wRouterNoRaw.ruleSets = [wSprintRulesNoRaw] from rfl]
  rw [List.foldl_cons,
    matchStep_enabled_lt (by decide) (by rw [wscore_sprint_noraw]; norm_num),
    List.foldl_nil, wscore_sprint_noraw]
  dsimp only
  rw [if_pos (by
    rw [mkRouteMatch_confidence, show wRouterNoRaw.threshold = 1/2 from rfl]; norm_num)]
  rw [wmk_eval_noraw]

theorem wscore_hello : scoreMatch (lchars "hello there") wSprintRules = 0 := by
  have hpat : (List.countP (fun p => p (lchars "hello there")) wSprintRules.patterns) = 0 := by
    decide
  have htrig : containsSub (lchars "sprint") (lchars "hello there") = false := by decide
  unfold scoreMatch
  rw [hpat]
  simp only [wSprintRules, List.foldl_cons, List.foldl_nil, htrig, Bool.false_eq_true,
    if_false]
  norm_num [min_def]

theorem wmatch_none :
    matchRoute wRouter (lchars "hello there") ["sprint_status"] = none := by
  have htl : pyStrip (toLowerL (lchars "hello there")) = lchars "hello there" := by decide
  unfold matchRoute
  rw [htl]
  rw [show wRouter.ruleSets = [wSprintRules] from rfl]
  rw [List.foldl_cons,
    matchStep_enabled_ge (by decide) (by rw [wscore_hello]; norm_num),
    List.foldl_nil]

theorem wmatch_disabled :
    matchRoute wRouter (lchars "hello there") [] = none := by
  have htl : pyStrip (toLowerL (lchars "hello there")) = lchars "hello there" := by decide
  unfold matchRoute
  rw [htl]
  rw [show wRouter.ruleSets = [wSprintRules] from rfl]
  rw [List.foldl_cons, @matchStep_disabled wRouter (lchars "hello there") [] none 0
    wSprintRules (by decide), List.foldl_nil]

/-- Serializer used by the concrete environments. -/
def wFormat : SkillResult → String
  | .payload s => s
  | .errorMarker s => s

/-- Concrete environment for the rule-matched raw-mode scenario: the
model oracles fail loudly if consulted, the skill bus returns a
payload. -/
def wEnvRaw : Env where
  enabledSkills := ["sprint_status"]
  registry := [⟨"sprint_status", true⟩]
  history := []
  aiChat := fun _ _ => .error "model should not be called"
  aiChatWithToolResult := fun _ _ _ _ => .error "model should not be called"
  invokeSkill := fun _ _ => .ok (some (.payload "sprint data"))
  formatRaw := wFormat

/-! ## C4: rule-matched raw mode -/

/-- C4: when the raw flag was extracted and the rule-matched skill
supports raw output, the reply is the skill result serialized verbatim
by the raw formatter, no model call of either form is made, the
reported token count is 0, and nothing is persisted to history. -/
theorem raw_mode_rule_matched (env : Env) (rr : RuleRouter) (text clean : List Char)
    (m : RouteMatch) (r : Option SkillResult)
    (hne : (pyStrip text).isEmpty = false)
    (hflag : strip_raw_flag (pyStrip text) = (clean, true))
    (hmatch : matchRoute rr clean env.enabledSkills = some m)
    (hraw : supportsRawQ rr env.registry m.skillName = true)
    (hinv : env.invokeSkill m.skillName m.params = .ok r) :
    handleChat env rr text =
      { reply := .ok (env.formatRaw (r.getD noResult)) 0 "rule" true,
        modelCalls := [], toolResultCalls := [],
        skillInvocations := [(m.skillName, m.params)],
        savedTurns := [], errorsDelta := 0 } := by
  have hb := chatBody_rule_raw env rr clean hmatch hraw hinv
  have h := handleChat_of_body_ok env rr text hne (by rw [hflag]; exact hb)
  rw [h]
  rfl

/-- Witness for C4 at the message `"sprint --raw"` against the concrete
router and environment. -/
theorem raw_mode_rule_matched_witness :
    handleChat wEnvRaw wRouter (lchars "sprint --raw") =
      { reply := .ok "sprint data" 0 "rule" true,
        modelCalls := [], toolResultCalls := [],
        skillInvocations := [("sprint_status", [("action", "status")])],
        savedTurns := [], errorsDelta := 0 } :=
  raw_mode_rule_matched wEnvRaw wRouter (lchars "sprint --raw") (lchars "sprint")
    wMatch (some (.payload "sprint data"))
    (by decide) (by decide) wmatch_eval (by decide) rfl

/-! ## C2 / C3 witnesses -/

/-- Witness for C2: the concrete router on the message `"sprint"`
returns `wMatch`, and the selection properties hold at that input. -/
theorem match_route_spec_witness :
    wRouter.threshold ≤ wMatch.confidence ∧
    ∃ pre rs post,
      wRouter.ruleSets.filter
        (fun rs => (["sprint_status"] : List String).contains rs.skillName) =
          pre ++ rs :: post ∧
      wMatch = mkRouteMatch wRouter (pyStrip (toLowerL (lchars "sprint"))) rs
        (scoreMatch (pyStrip (toLowerL (lchars "sprint"))) rs) ∧
      wMatch.confidence = scoreMatch (pyStrip (toLowerL (lchars "sprint"))) rs ∧
      (∀ p ∈ pre, scoreMatch (pyStrip (toLowerL (lchars "sprint"))) p < wMatch.confidence) ∧
      (∀ p ∈ post, scoreMatch (pyStrip (toLowerL (lchars "sprint"))) p ≤ wMatch.confidence) :=
  (match_route_spec wRouter (lchars "sprint") ["sprint_status"]).1 wMatch wmatch_eval

/-- Witness for C3: on `"sprint blocked"` the earlier `blockers` rule
wins although the later `status` rule also matches; on a text matching
no action rule the last declared rule's action is returned. -/
theorem determine_action_spec_witness :
    determineAction (lchars "sprint blocked") wSprintRules = "blockers" ∧
    determineAction (lchars "deadline next week") wSprintRules = "status" := by
  constructor
  · exact (determine_action_spec (lchars "sprint blocked") wSprintRules).1 []
      (fun tl => containsSub (lchars "block") tl) "blockers"
      [(fun tl => containsSub (lchars "sprint") tl, "status")]
      rfl (by decide) (by simp)
  · refine (determine_action_spec (lchars "deadline next week") wSprintRules).2
      [(fun tl => containsSub (lchars "block") tl, "blockers")]
      (fun tl => containsSub (lchars "sprint") tl) "status" rfl ?_
    intro q hq
    simp only [wSprintRules, List.mem_cons, List.not_mem_nil, or_false] at hq
    rcases hq with rfl | rfl <;> decide

/-! ## C5: multi-tool-call responses -/

/-- A model response carrying two tool calls. -/
def twoToolResp : ModelResponse where
  text := none
  toolCalls :=
    [⟨"sprint_status", [("action", "status")], "id1"⟩,
     ⟨"sprint_status", [("action", "blockers")], "id2"⟩]
  inputTokens := 1
  outputTokens := 2

/-- Counterexample to C5 as stated: `Router.handle_message` publishes a
skill invocation for EVERY tool call of a multi-tool-call response —
with two tool calls, the second one is also dispatched to the
skill-execution collaborator, not silently ignored. -/
theorem router_dispatch_two_tool_calls_counterexample :
    routerToolDispatch twoToolResp =
      [("sprint_status", [("action", "status")]),
       ("sprint_status", [("action", "blockers")])] := by decide

/-- C5 (amended): the dev-server chat handler executes only the first
tool call of a model-routed response, ignoring the rest; but
`Router.handle_message` publishes one skill invocation per tool call,
dispatching every one of them. -/
theorem first_tool_call_only_amended :
    (∀ (env : Env) (rr : RuleRouter) (clean : List Char) (isRaw : Bool)
      (b : BodyResult) (resp : ModelResponse) (tc : ToolCall) (rest : List ToolCall),
      (!isRaw && is_conversational clean) = false →
      matchRoute rr clean env.enabledSkills = none →
      env.aiChat (env.history ++ [.user (listToStr clean)])
        (getToolsForTenant env.registry env.enabledSkills) = .ok resp →
      resp.toolCalls = tc :: rest →
      chatBody env rr clean isRaw = .ok b →
      b.skillInvocations = [(tc.toolName, tc.toolParams)]) ∧
    (∀ resp : ModelResponse,
      routerToolDispatch resp = resp.toolCalls.map fun tc => (tc.toolName, tc.toolParams)) := by
  constructor
  · intro env rr clean isRaw b resp tc rest hskip hnomatch hai htc hb
    cases hinv : env.invokeSkill tc.toolName tc.toolParams with
    | error e =>
      have hberr : chatBody env rr clean isRaw = .error e := by
        unfold chatBody
        rw [if_neg (by rw [hskip]; exact Bool.false_ne_true)]
        rw [hnomatch]
        dsimp only
        rw [hai]
        dsimp only
        rw [htc]
        dsimp only
        rw [hinv]
      rw [hberr] at hb
      cases hb
    | ok r =>
      by_cases hx : (isRaw && supportsRawQ rr env.registry tc.toolName) = true
      · rw [chatBody_model_tool_raw env rr clean isRaw hskip hnomatch hai htc hinv hx] at hb
        injection hb with hb
        rw [← hb]
      · have hx' : (isRaw && supportsRawQ rr env.registry tc.toolName) = false :=
          Bool.not_eq_true _ ▸ Bool.eq_false_iff.mpr hx
        cases hfinal : env.aiChatWithToolResult
            (env.history ++ [.user (listToStr clean),
              .assistantToolUse tc.toolUseId tc.toolName tc.toolParams])
            (getToolsForTenant env.registry env.enabledSkills)
            tc.toolUseId (r.getD noResult) with
        | error e =>
          have hberr : chatBody env rr clean isRaw = .error e := by
            unfold chatBody
            rw [if_neg (by rw [hskip]; exact Bool.false_ne_true)]
            rw [hnomatch]
            dsimp only
            rw [hai]
            dsimp only
            rw [htc]
            dsimp only
            rw [hinv]
            dsimp only
            rw [if_neg (by rw [hx']; exact Bool.false_ne_true)]
            rw [hfinal]
          rw [hberr] at hb
          cases hb
        | ok finalResp =>
          rw [chatBody_model_tool_narrated env rr clean isRaw hskip hnomatch hai htc hinv
            hx' hfinal] at hb
          injection hb with hb
          rw [← hb]
  · intro resp
    unfold routerToolDispatch ModelResponse.hasToolUse
    cases resp.toolCalls with
    | nil => simp
    | cons tc rest => simp

/-- Environment for the tier-2 witnesses: the model proposes the two
tool calls of `twoToolResp`, the bus returns a payload, and the second
model call narrates. -/
def wEnvTools : Env where
  enabledSkills := ["sprint_status"]
  registry := [⟨"sprint_status", false⟩]
  history := []
  aiChat := fun _ _ => .ok twoToolResp
  aiChatWithToolResult := fun _ _ _ _ =>
    .ok { text := some "narrated", toolCalls := [], inputTokens := 3, outputTokens := 4 }
  invokeSkill := fun _ _ => .ok (some (.payload "result data"))
  formatRaw := wFormat

/-- The body result of the tier-2 narrated turn under `wEnvTools`. -/
def wToolBody : BodyResult where
  replyText := "narrated"
  tokens := 10
  route := "ai"
  isRawResponse := false
  modelCalls := [([.user "hello there"], ["sprint_status"])]
  toolResultCalls :=
    [([.user "hello there",
       .assistantToolUse "id1" "sprint_status" [("action", "status")]],
      ["sprint_status"], "id1", .payload "result data")]
  skillInvocations := [("sprint_status", [("action", "status")])]

theorem wbody_tools_eval :
    chatBody wEnvTools wRouter (lchars "hello there") false = .ok wToolBody := by
  have h := @chatBody_model_tool_narrated wEnvTools wRouter (lchars "hello there") false
    twoToolResp
    { text := some "narrated", toolCalls := [], inputTokens := 3, outputTokens := 4 }
    ⟨"sprint_status", [("action", "status")], "id1"⟩
    [⟨"sprint_status", [("action", "blockers")], "id2"⟩]
    (some (.payload "result data"))
    (by decide) wmatch_none rfl rfl rfl rfl rfl
  exact h

/-- Witness for C5: under the concrete environment the dev-server body
invokes only the first of the two proposed tool calls, while the
router's dispatch publishes both. -/
theorem first_tool_call_only_witness :
    wToolBody.skillInvocations = [("sprint_status", [("action", "status")])] ∧
    routerToolDispatch twoToolResp =
      [("sprint_status", [("action", "status")]),
       ("sprint_status", [("action", "blockers")])] :=
  ⟨first_tool_call_only_amended.1 wEnvTools wRouter (lchars "hello there") false
      wToolBody twoToolResp ⟨"sprint_status", [("action", "status")], "id1"⟩
      [⟨"sprint_status", [("action", "blockers")], "id2"⟩]
      (by decide) wmatch_none rfl rfl wbody_tools_eval,
   first_tool_call_only_amended.2 twoToolResp⟩

/-! ## C6: top-level error handling -/

/-- Environment whose model collaborator raises. -/
def wEnvErr : Env where
  enabledSkills := []
  registry := []
  history := []
  aiChat := fun _ _ => .error "boom"
  aiChatWithToolResult := fun _ _ _ _ => .error "boom"
  invokeSkill := fun _ _ => .error "boom"
  formatRaw := wFormat

/-- Counterexample to C6 as stated: when the model call raises with
message `"boom"`, the handler's reply is `{"error": str(e)}` with
status 500 — the raw exception text IS returned to the client, not a
generic message that hides it. -/
theorem error_reply_shows_raw_text_counterexample :
    handleChat wEnvErr wRouter (lchars "hello there") =
      { reply := .err 500 "boom", modelCalls := [], toolResultCalls := [],
        skillInvocations := [], savedTurns := [], errorsDelta := 1 } := by
  have hb : chatBody wEnvErr wRouter (lchars "hello there") false = .error "boom" := by
    unfold chatBody
    rw [if_neg (by decide)]
    rw [show wEnvErr.enabledSkills = [] from rfl, wmatch_disabled]
    rfl
  have hflag : strip_raw_flag (pyStrip (lchars "hello there")) =
      (lchars "hello there", false) := by decide
  exact handleChat_of_body_error wEnvErr wRouter (lchars "hello there") (by decide)
    (by rw [hflag]; exact hb)

/-- C6 (amended): an exception raised inside the routing body — a model
call or the skill bus — is caught at the top level of `_handle_chat`:
the handler does not crash but answers with a 500 reply whose body
carries the exception's own message text (so the raw error text is
shown to the client rather than a generic reply), the error counter is
bumped, and no history entry is persisted for the failed turn. -/
theorem top_level_error_handling_amended (env : Env) (rr : RuleRouter) (text : List Char)
    (e : Err) (hne : (pyStrip text).isEmpty = false)
    (hb : chatBody env rr (strip_raw_flag (pyStrip text)).1
      (strip_raw_flag (pyStrip text)).2 = .error e) :
    handleChat env rr text =
      { reply := .err 500 e, modelCalls := [], toolResultCalls := [],
        skillInvocations := [], savedTurns := [], errorsDelta := 1 } :=
  handleChat_of_body_error env rr text hne hb

/-- Witness for C6 (amended) at a concrete failing model call. -/
theorem top_level_error_handling_witness :
    handleChat wEnvErr wRouter (lchars "sprint status") =
      { reply := .err 500 "boom", modelCalls := [], toolResultCalls := [],
        skillInvocations := [], savedTurns := [], errorsDelta := 1 } := by
  have hb : chatBody wEnvErr wRouter (lchars "sprint status") false = .error "boom" := by
    unfold chatBody
    rw [if_neg (by decide)]
    have hm : matchRoute wRouter (lchars "sprint status") [] = none := by
      have htl : pyStrip (toLowerL (lchars "sprint status")) = lchars "sprint status" := by
        decide
      unfold matchRoute
      rw [htl]
      rw [show wRouter.ruleSets = [wSprintRules] from rfl]
      rw [List.foldl_cons, @matchStep_disabled wRouter (lchars "sprint status") [] none 0
        wSprintRules (by decide), List.foldl_nil]
    rw [show wEnvErr.enabledSkills = [] from rfl, hm]
    rfl
  have hflag : strip_raw_flag (pyStrip (lchars "sprint status")) =
      (lchars "sprint status", false) := by decide
  exact top_level_error_handling_amended wEnvErr wRouter (lchars "sprint status") "boom"
    (by decide) (by rw [hflag]; exact hb)

/-! ## C7: the "hi there" scenario -/

/-- Counterexample to C7 as stated: the conversational classifier
returns `false` on `"hi there"` — no whole-string pattern matches it
(after the alternative `hi`, the remainder `" there"` is not all
whitespace or punctuation). -/
theorem hi_there_not_conversational_counterexample :
    is_conversational (lchars "hi there") = false := by decide

/-- C7 (amended): `"hi there"` is NOT classified conversational, so it
does not take the conversational route; a message that wholly matches a
conversational pattern, such as `"hi"`, does: with no raw flag, the
turn is routed conversational, no skill is invoked, and the single
model call carries zero tool definitions. -/
theorem conversational_routing_amended :
    is_conversational (lchars "hi there") = false ∧
    (∀ (env : Env) (rr : RuleRouter) (resp : ModelResponse),
      env.aiChat (env.history ++ [.user "hi"]) [] = .ok resp →
      handleChat env rr (lchars "hi") =
        { reply := .ok (resp.text.getD "Hey! How can I help?")
            (resp.inputTokens + resp.outputTokens) "conversational" false,
          modelCalls := [(env.history ++ [.user "hi"], [])],
          toolResultCalls := [], skillInvocations := [],
          savedTurns := [("hi", resp.text.getD "Hey! How can I help?")],
          errorsDelta := 0 }) := by
  constructor
  · decide
  · intro env rr resp hai
    have hb := chatBody_conversational env rr (lchars "hi") (by decide) (by exact hai)
    have hflag : strip_raw_flag (pyStrip (lchars "hi")) = (lchars "hi", false) := by decide
    have h := handleChat_of_body_ok env rr (lchars "hi") (by decide) (by rw [hflag]; exact hb)
    rw [h]
    rfl

/-- Environment for the conversational witness. -/
def wEnvConv : Env where
  enabledSkills := ["sprint_status"]
  registry := [⟨"sprint_status", true⟩]
  history := []
  aiChat := fun _ _ =>
    .ok { text := some "Hello!", toolCalls := [], inputTokens := 5, outputTokens := 7 }
  aiChatWithToolResult := fun _ _ _ _ => .error "unused"
  invokeSkill := fun _ _ => .error "unused"
  formatRaw := wFormat

/-- Witness for C7 (amended) at the concrete environment. -/
theorem conversational_routing_witness :
    is_conversational (lchars "hi there") = false ∧
    handleChat wEnvConv wRouter (lchars "hi") =
      { reply := .ok "Hello!" 12 "conversational" false,
        modelCalls := [([.user "hi"], [])], toolResultCalls := [],
        skillInvocations := [], savedTurns := [("hi", "Hello!")], errorsDelta := 0 } := by
  refine ⟨conversational_routing_amended.1, ?_⟩
  have h := conversational_routing_amended.2 wEnvConv wRouter
    { text := some "Hello!", toolCalls := [], inputTokens := 5, outputTokens := 7 } rfl
  rw [h]
  rfl

/-! ## C9: disabled skills are never selected -/

theorem matchFold_nil_enabled (rr : RuleRouter) (tl : List Char) :
    ∀ (l : List RuleSet) (b : Option RouteMatch) (c : ℚ),
      l.foldl (matchStep rr tl []) (b, c) = (b, c) := by
  intro l
  induction l with
  | nil => intro b c; rfl
  | cons hd t ih =>
    intro b c
    rw [List.foldl_cons, @matchStep_disabled rr tl [] b c hd rfl]
    exact ih b c

/-- With no enabled skills the rule matcher always returns no match. -/
theorem matchRoute_nil_enabled (rr : RuleRouter) (text : List Char) :
    matchRoute rr text [] = none := by
  unfold matchRoute
  rw [matchFold_nil_enabled rr (pyStrip (toLowerL text)) rr.ruleSets none 0]

theorem mkRouteMatch_skillName (rr : RuleRouter) (tl : List Char) (rs : RuleSet)
    (conf : ℚ) : (mkRouteMatch rr tl rs conf).skillName = rs.skillName := rfl

/-- C9: a skill that is not in the tenant's enabled list is never
selected by the rule matcher, however strongly its rules match; with an
empty enabled list the matcher always returns no match, the tool
projection for the tenant is empty, and such a message is handled on
the model route with an empty tool list in the model call. -/
theorem disabled_skill_never_matches :
    (∀ (rr : RuleRouter) (text : List Char) (enabled : List String) (m : RouteMatch),
      matchRoute rr text enabled = some m → enabled.contains m.skillName = true) ∧
    (∀ (rr : RuleRouter) (text : List Char), matchRoute rr text [] = none) ∧
    (∀ registry : List SkillDef, getToolsForTenant registry [] = []) ∧
    (∀ (env : Env) (rr : RuleRouter) (clean : List Char) (isRaw : Bool) (b : BodyResult),
      env.enabledSkills = [] →
      (!isRaw && is_conversational clean) = false →
      chatBody env rr clean isRaw = .ok b →
      b.route = "ai" ∧
      b.modelCalls = [(env.history ++ [.user (listToStr clean)], [])]) := by
  refine ⟨?_, fun rr text => matchRoute_nil_enabled rr text, fun _ => rfl, ?_⟩
  · intro rr text enabled m hm
    unfold matchRoute at hm
    rcases matchFold_spec rr (pyStrip (toLowerL text)) enabled rr.ruleSets none 0 with
      ⟨hr, _⟩ | ⟨pre, rs, post, hfil, hr, _, _, _⟩
    · rw [hr] at hm
      cases hm
    · rw [hr] at hm
      dsimp only at hm
      by_cases hth : rr.threshold ≤
          (mkRouteMatch rr (pyStrip (toLowerL text)) rs
            (scoreMatch (pyStrip (toLowerL text)) rs)).confidence
      · rw [if_pos hth] at hm
        injection hm with hm
        subst hm
        rw [mkRouteMatch_skillName]
        have hrs : rs ∈ rr.ruleSets.filter (fun rs => enabled.contains rs.skillName) := by
          rw [hfil]
          exact List.mem_append_right pre (List.mem_cons_self rs post)
        exact (List.mem_filter.mp hrs).2
      · rw [if_neg hth] at hm
        cases hm
  · intro env rr clean isRaw b henv hskip hb
    have hnomatch : matchRoute rr clean env.enabledSkills = none := by
      rw [henv]
      exact matchRoute_nil_enabled rr clean
    have htools : getToolsForTenant env.registry env.enabledSkills = [] := by
      rw [henv]
      rfl
    cases hai : env.aiChat (env.history ++ [.user (listToStr clean)])
        (getToolsForTenant env.registry env.enabledSkills) with
    | error e =>
      have hberr : chatBody env rr clean isRaw = .error e := by
        unfold chatBody
        rw [if_neg (by rw [hskip]; exact Bool.false_ne_true)]
        rw [hnomatch]
        dsimp only
        rw [hai]
      rw [hberr] at hb
      cases hb
    | ok resp =>
      cases htc : resp.toolCalls with
      | nil =>
        rw [chatBody_model_direct env rr clean isRaw hskip hnomatch hai htc] at hb
        injection hb with hb
        rw [← hb]
        exact ⟨rfl, by rw [htools]⟩
      | cons tc rest =>
        cases hinv : env.invokeSkill tc.toolName tc.toolParams with
        | error e =>
          have hberr : chatBody env rr clean isRaw = .error e := by
            unfold chatBody
            rw [if_neg (by rw [hskip]; exact Bool.false_ne_true)]
            rw [hnomatch]
            dsimp only
            rw [hai]
            dsimp only
            rw [htc]
            dsimp only
            rw [hinv]
          rw [hberr] at hb
          cases hb
        | ok r =>
          by_cases hx : (isRaw && supportsRawQ rr env.registry tc.toolName) = true
          · rw [chatBody_model_tool_raw env rr clean isRaw hskip hnomatch hai htc hinv hx]
              at hb
            injection hb with hb
            rw [← hb]
            exact ⟨rfl, by rw [htools]⟩
          · have hx' : (isRaw && supportsRawQ rr env.registry tc.toolName) = false :=
              Bool.not_eq_true _ ▸ Bool.eq_false_iff.mpr hx
            cases hfinal : env.aiChatWithToolResult
                (env.history ++ [.user (listToStr clean),
                  .assistantToolUse tc.toolUseId tc.toolName tc.toolParams])
                (getToolsForTenant env.registry env.enabledSkills)
                tc.toolUseId (r.getD noResult) with
            | error e =>
              have hberr : chatBody env rr clean isRaw = .error e := by
                unfold chatBody
                rw [if_neg (by rw [hskip]; exact Bool.false_ne_true)]
                rw [hnomatch]
                dsimp only
                rw [hai]
                dsimp only
                rw [htc]
                dsimp only
                rw [hinv]
                dsimp only
                rw [if_neg (by rw [hx']; exact Bool.false_ne_true)]
                rw [hfinal]
              rw [hberr] at hb
              cases hb
            | ok finalResp =>
              rw [chatBody_model_tool_narrated env rr clean isRaw hskip hnomatch hai htc
                hinv hx' hfinal] at hb
              injection hb with hb
              rw [← hb]
              exact ⟨rfl, by rw [htools]⟩

/-- Environment whose tenant has no skills enabled. -/
def wEnvEmpty : Env where
  enabledSkills := []
  registry := []
  history := []
  aiChat := fun _ _ =>
    .ok { text := some "direct answer", toolCalls := [], inputTokens := 2, outputTokens := 3 }
  aiChatWithToolResult := fun _ _ _ _ => .error "unused"
  invokeSkill := fun _ _ => .error "unused"
  formatRaw := wFormat

/-- The body produced under `wEnvEmpty` for `"hello there"`. -/
def wEmptyBody : BodyResult where
  replyText := "direct answer"
  tokens := 5
  route := "ai"
  isRawResponse := false
  modelCalls := [([.user "hello there"], [])]
  toolResultCalls := []
  skillInvocations := []

/-- Witness for C9 at concrete inputs. -/
theorem disabled_skill_never_matches_witness :
    (["sprint_status"] : List String).contains wMatch.skillName = true ∧
    matchRoute wRouter (lchars "sprint") [] = none ∧
    getToolsForTenant [⟨"sprint_status", true⟩] [] = [] ∧
    (wEmptyBody.route = "ai" ∧
      wEmptyBody.modelCalls = [([.user "hello there"], [])]) :=
  ⟨disabled_skill_never_matches.1 wRouter (lchars "sprint") ["sprint_status"] wMatch
      wmatch_eval,
   disabled_skill_never_matches.2.1 wRouter (lchars "sprint"),
   disabled_skill_never_matches.2.2.1 [⟨"sprint_status", true⟩],
   disabled_skill_never_matches.2.2.2 wEnvEmpty wRouter (lchars "hello there") false
     wEmptyBody rfl (by decide) rfl⟩

/-! ## C10: history exclusion is keyed on the raw RESPONSE -/

/-- C10: a `--raw` request whose handling does not actually produce raw
output is silently downgraded — the turn completes through model
narration, the reply is not flagged raw, and the (cleaned text, reply)
pair IS persisted to history like a normal turn.  The three downgrade
cases: the rule-matched skill does not support raw; the model-chosen
skill does not support raw; no rule match and the model issues no tool
call. -/
theorem history_exclusion_keyed_on_raw_response :
    (∀ (env : Env) (rr : RuleRouter) (text clean : List Char) (m : RouteMatch)
      (r : Option SkillResult) (resp : ModelResponse),
      (pyStrip text).isEmpty = false →
      strip_raw_flag (pyStrip text) = (clean, true) →
      matchRoute rr clean env.enabledSkills = some m →
      supportsRawQ rr env.registry m.skillName = false →
      env.invokeSkill m.skillName m.params = .ok r →
      env.aiChat (env.history ++ [.user (mkFormatPrompt (listToStr clean) m.skillName
        (env.formatRaw (r.getD noResult)))]) [] = .ok resp →
      handleChat env rr text =
        { reply := .ok (resp.text.getD "Got the data but could not format it.")
            (resp.inputTokens + resp.outputTokens) "rule" false,
          modelCalls := [(env.history ++ [.user (mkFormatPrompt (listToStr clean)
            m.skillName (env.formatRaw (r.getD noResult)))], [])],
          toolResultCalls := [],
          skillInvocations := [(m.skillName, m.params)],
          savedTurns := [(listToStr clean,
            resp.text.getD "Got the data but could not format it.")],
          errorsDelta := 0 }) ∧
    (∀ (env : Env) (rr : RuleRouter) (text clean : List Char) (tc : ToolCall)
      (rest : List ToolCall) (r : Option SkillResult) (resp finalResp : ModelResponse),
      (pyStrip text).isEmpty = false →
      strip_raw_flag (pyStrip text) = (clean, true) →
      matchRoute rr clean env.enabledSkills = none →
      env.aiChat (env.history ++ [.user (listToStr clean)])
        (getToolsForTenant env.registry env.enabledSkills) = .ok resp →
      resp.toolCalls = tc :: rest →
      env.invokeSkill tc.toolName tc.toolParams = .ok r →
      supportsRawQ rr env.registry tc.toolName = false →
      env.aiChatWithToolResult
        (env.history ++ [.user (listToStr clean),
          .assistantToolUse tc.toolUseId tc.toolName tc.toolParams])
        (getToolsForTenant env.registry env.enabledSkills)
        tc.toolUseId (r.getD noResult) = .ok finalResp →
      handleChat env rr text =
        { reply := .ok (finalResp.text.getD "Got the data but could not format it.")
            (resp.inputTokens + resp.outputTokens +
              finalResp.inputTokens + finalResp.outputTokens) "ai" false,
          modelCalls := [(env.history ++ [.user (listToStr clean)],
            getToolsForTenant env.registry env.enabledSkills)],
          toolResultCalls := [(env.history ++ [.user (listToStr clean),
            .assistantToolUse tc.toolUseId tc.toolName tc.toolParams],
            getToolsForTenant env.registry env.enabledSkills,
            tc.toolUseId, r.getD noResult)],
          skillInvocations := [(tc.toolName, tc.toolParams)],
          savedTurns := [(listToStr clean,
            finalResp.text.getD "Got the data but could not format it.")],
          errorsDelta := 0 }) ∧
    (∀ (env : Env) (rr : RuleRouter) (text clean : List Char) (resp : ModelResponse),
      (pyStrip text).isEmpty = false →
      strip_raw_flag (pyStrip text) = (clean, true) →
      matchRoute rr clean env.enabledSkills = none →
      env.aiChat (env.history ++ [.user (listToStr clean)])
        (getToolsForTenant env.registry env.enabledSkills) = .ok resp →
      resp.toolCalls = [] →
      handleChat env rr text =
        { reply := .ok (resp.text.getD "I am not sure how to help with that.")
            (resp.inputTokens + resp.outputTokens) "ai" false,
          modelCalls := [(env.history ++ [.user (listToStr clean)],
            getToolsForTenant env.registry env.enabledSkills)],
          toolResultCalls := [], skillInvocations := [],
          savedTurns := [(listToStr clean,
            resp.text.getD "I am not sure how to help with that.")],
          errorsDelta := 0 }) := by
  refine ⟨?_, ?_, ?_⟩
  · intro env rr text clean m r resp hne hflag hmatch hsup hinv hai
    have hb := chatBody_rule_narrated env rr clean true (by rfl) hmatch
      (by rw [Bool.true_and, hsup]) hinv hai
    have h := handleChat_of_body_ok env rr text hne (by rw [hflag]; exact hb)
    rw [h, hflag]
    rfl
  · intro env rr text clean tc rest r resp finalResp hne hflag hnomatch hai htc hinv
      hsup hfinal
    have hb := chatBody_model_tool_narrated env rr clean true (by rfl) hnomatch hai htc
      hinv (by rw [Bool.true_and, hsup]) hfinal
    have h := handleChat_of_body_ok env rr text hne (by rw [hflag]; exact hb)
    rw [h, hflag]
    rfl
  · intro env rr text clean resp hne hflag hnomatch hai hnotool
    have hb := chatBody_model_direct env rr clean true (by rfl) hnomatch hai hnotool
    have h := handleChat_of_body_ok env rr text hne (by rw [hflag]; exact hb)
    rw [h, hflag]
    rfl

/-- Environment whose one skill does not support raw output. -/
def wEnvNoRaw : Env where
  enabledSkills := ["sprint_status"]
  registry := [⟨"sprint_status", false⟩]
  history := []
  aiChat := fun _ _ =>
    .ok { text := some "formatted summary", toolCalls := [], inputTokens := 8, outputTokens := 9 }
  aiChatWithToolResult := fun _ _ _ _ => .error "unused"
  invokeSkill := fun _ _ => .ok (some (.payload "raw payload"))
  formatRaw := wFormat

/-- Witness for C10 (case of a rule-matched skill without raw support):
the `--raw` flag is ignored, the turn is narrated by the model, and it
IS persisted to history. -/
theorem history_exclusion_witness :
    handleChat wEnvNoRaw wRouterNoRaw (lchars "sprint --raw") =
      { reply := .ok "formatted summary" 17 "rule" false,
        modelCalls := [([.user (mkFormatPrompt "sprint" "sprint_status" "raw payload")], [])],
        toolResultCalls := [],
        skillInvocations := [("sprint_status", [("action", "status")])],
        savedTurns := [("sprint", "formatted summary")],
        errorsDelta := 0 } :=
  history_exclusion_keyed_on_raw_response.1 wEnvNoRaw wRouterNoRaw
    (lchars "sprint --raw") (lchars "sprint") wMatch (some (.payload "raw payload"))
    { text := some "formatted summary", toolCalls := [], inputTokens := 8, outputTokens := 9 }
    (by decide) (by decide) wmatch_eval_noraw (by decide) rfl rfl

end T3nets
